import Mathlib

/-!
Shallow embedding of the gide Command Execution Engine core:
the argument-variable machinery of `argvars.go` (`ArgVars`,
`SetArgVarVals`, `BindArgVars`) and the command / key-dispatch
entry points of `gide.go` (`SaveAllCheck`, `Build`, `Run`,
`Commit`, `CommitNoChecks`, `FindOrMakeCmdBuf`, `GideKeys`).
Go byte strings are modelled as `List Char` (every byte of the
delimiters scanned by the expander is ASCII, so character-level
and byte-level scanning coincide on the inputs considered), Go
maps as association lists, and the possibly-nonterminating scan
loop of `BindArgVars` as a fuel-indexed step function whose
`none` result means the loop has not finished within the fuel.
-/

namespace Gide

/-- Character constants for the template delimiters and the escape marker. -/
def lbrace : Char := Char.ofNat 123

def rbrace : Char := Char.ofNat 125

def backslash : Char := Char.ofNat 92

/-- Go map assignment `m[k] = v` on an association-list model of a
string-keyed Go map: updates the first binding of `k` in place, or appends
a new binding when `k` is absent. -/
def mapSet {β : Type} (m : List (String × β)) (k : String) (v : β) : List (String × β) :=
  match m with
  | [] => [(k, v)]
  | (k', v') :: rest => if k' = k then (k, v) :: rest else (k', v') :: mapSet rest k v

/-- Recursion core of `bytesReplace`; the fuel only serves structural
recursion and is always instantiated with the length of the scanned list,
which bounds the number of iterations because every iteration consumes at
least one character. -/
def bytesReplaceGo : Nat → List Char → List Char → List Char → List Char
  | 0, l, _, _ => l
  | fuel + 1, l, pat, rep =>
    match l with
    | [] => []
    | c :: rest =>
      if pat ≠ [] ∧ pat.isPrefixOf (c :: rest) then
        rep ++ bytesReplaceGo fuel ((c :: rest).drop pat.length) pat rep
      else
        c :: bytesReplaceGo fuel rest pat rep

/-- Go `bytes.Replace(s, old, new, -1)`: replace every non-overlapping
occurrence of `pat` in `l` by `rep`, scanning left to right. -/
def bytesReplace (l pat rep : List Char) : List Char :=
  bytesReplaceGo l.length l pat rep

/-- Loop state of `BindArgVars`: the byte slice `bs`, the scan index `ci`,
the cached length `sz`, and the `gotquote` flag. -/
structure BindState where
  bs : List Char
  ci : Nat
  sz : Nat
  gotquote : Bool
deriving Repr, DecidableEq

/-- Outcome of one iteration of the scan loop of `BindArgVars`: either the
loop exits (via the guard failing or one of the two `break`s) carrying the
final bytes and quote flag, or it continues with an updated state. -/
inductive BindStep where
  | done (bs : List Char) (gotquote : Bool) : BindStep
  | cont (s : BindState) : BindStep
deriving Repr, DecidableEq

/-- One iteration of the `for ci < sz` loop of `BindArgVars`
(argvars.go lines 111 to 141), translated clause by clause:
find the next `lbrace`; treat it as quoted when preceded by a backslash;
find the closing `rbrace`; a token starting with the prompt marker falls
into the empty `todo` branch; otherwise a token bound in `vals` is spliced
in and the scan index jumps past the substituted value. -/
def bindStep (vals : List (String × String)) (s : BindState) : BindStep :=
  if s.ci < s.sz then
    match List.findIdx? (fun c => c = lbrace) (s.bs.drop s.ci) with
    | none => .done s.bs s.gotquote
    | some sb =>
      let ci := s.ci + sb
      if 1 ≤ ci ∧ s.bs.getD (ci - 1) (Char.ofNat 0) = backslash then
        .cont { s with ci := ci + 1, gotquote := true }
      else
        match List.findIdx? (fun c => c = rbrace) (s.bs.drop (ci + 1)) with
        | none => .done s.bs s.gotquote
        | some eb0 =>
          let eb := eb0 + ci + 1
          let vnm : String := ⟨(s.bs.drop ci).take (eb + 1 - ci)⟩
          if ("\x7bPrompt" : String).data.isPrefixOf vnm.data then
            .cont { s with ci := ci }
          else
            match List.lookup vnm vals with
            | some val =>
              let tl := s.bs.drop (eb + 1)
              let endb :=
                if s.sz - (eb + 1) ≤ tl.length then tl.take (s.sz - (eb + 1))
                else tl ++ List.replicate (s.sz - (eb + 1) - tl.length) (Char.ofNat 0)
              let bs2 := s.bs.take ci ++ val.data
              let bs3 := bs2 ++ endb
              { bs := bs3, ci := bs2.length, sz := bs3.length, gotquote := s.gotquote : BindState}
              |> .cont
            | none => .cont { s with ci := ci, sz := s.bs.length }
  else .done s.bs s.gotquote

/-- Fuel-indexed iteration of `bindStep`; `none` means the loop has not
exited after `fuel` iterations. -/
def bindLoop (vals : List (String × String)) : Nat → BindState → Option (List Char × Bool)
  | 0, _ => none
  | fuel + 1, s =>
    match bindStep vals s with
    | .done bs gq => some (bs, gq)
    | .cont s' => bindLoop vals fuel s'

/-- BindArgVars (argvars.go lines 106 to 150) replaces the variables in the
given arg string with their values from `vals` (the `ArgVarVals` global,
passed explicitly).  After the scan loop, when a quoted delimiter was seen,
every backslash-lbrace pair is collapsed to a bare lbrace; on Windows
(`win = true`) the rbrace-slash-lbrace remnants are rewritten with a
backslash.  `none` reports that the scan loop did not finish within `fuel`
iterations. -/
def BindArgVars (win : Bool) (vals : List (String × String)) (arg : String)
    (fuel : Nat) : Option String :=
  match bindLoop vals fuel { bs := arg.data, ci := 0, sz := arg.length, gotquote := false } with
  | none => none
  | some (bs, gq) =>
    let bs := if gq then bytesReplace bs [backslash, lbrace] [lbrace] else bs
    let bs := if win then bytesReplace bs [rbrace, '/', lbrace] [rbrace, backslash, lbrace] else bs
    some ⟨bs⟩

/-- Text position of the giv collaborator: line `Ln` and character `Ch`. -/
structure TextPos where
  Ln : Int
  Ch : Int
deriving Repr, DecidableEq

/-- Text region of the giv collaborator: a start and an end position. -/
structure TextRegion where
  Start : TextPos
  End : TextPos
deriving Repr, DecidableEq

/-- The slice of a giv TextView that `SetArgVarVals` reads: the cursor
position and the selection region. -/
structure TextView where
  CursorPos : TextPos
  SelectReg : TextRegion
deriving Repr, DecidableEq

/-- Path and string helpers of the Go standard library used by
`SetArgVarVals` (filepath.Clean, filepath.Split as a dir and file pair,
filepath.Rel with its error dropped as in the source, filepath.Ext,
strings.ToLower, strings.TrimSuffix).  They are external collaborators of
the repository, so the embedding is parametric in them: no property proved
below depends on their values. -/
structure PathLib where
  clean : String → String
  split : String → String × String
  rel : String → String → String
  ext : String → String
  toLower : String → String
  trimSuffix : String → String → String

/-- Concrete stand-in instance of the path helpers, used only to evaluate
the embedding at closed inputs; the key-set facts proved below hold for
every instance. -/
def pathLib0 : PathLib where
  clean := fun s => s
  split := fun s => ("", s)
  rel := fun _ t => t
  ext := fun _ => ""
  toLower := fun s => s
  trimSuffix := fun s _ => s

/-- ArgVars (argvars.go lines 18 to 45): the tokens that can be used for
arguments to commands, in catalog order. -/
def ArgVars : List String :=
  ["\x7bFilePath\x7d", "\x7bFileName\x7d", "\x7bFileExt\x7d", "\x7bFileExtLC\x7d",
   "\x7bFileNameNoExt\x7d", "\x7bFileDir\x7d", "\x7bFileDirPath\x7d", "\x7bFileDirProjRel\x7d",
   "\x7bProjectDir\x7d", "\x7bProjectPath\x7d", "\x7bCurLine\x7d", "\x7bCurCol\x7d",
   "\x7bSelStartLine\x7d", "\x7bSelStartCol\x7d", "\x7bSelEndLine\x7d", "\x7bSelEndCol\x7d",
   "\x7bCurSel\x7d", "\x7bCurLineText\x7d", "\x7bCurWord\x7d", "\x7bPromptFilePath\x7d",
   "\x7bPromptFileName\x7d", "\x7bPromptFileDir\x7d", "\x7bPromptFileDirPath\x7d",
   "\x7bPromptFileDirProjRel\x7d", "\x7bPromptString1\x7d", "\x7bPromptString2\x7d"]

/-- Interactive prompt tokens: the members of `ArgVars` whose name starts
with the prompt marker. -/
def promptTokens : List String :=
  ["\x7bPromptFilePath\x7d", "\x7bPromptFileName\x7d", "\x7bPromptFileDir\x7d",
   "\x7bPromptFileDirPath\x7d", "\x7bPromptFileDirProjRel\x7d",
   "\x7bPromptString1\x7d", "\x7bPromptString2\x7d"]

/-- Editor-dependent contextual tokens: the members of `ArgVars` whose
value is read from the active text view. -/
def editorTokens : List String :=
  ["\x7bCurLine\x7d", "\x7bCurCol\x7d", "\x7bSelStartLine\x7d", "\x7bSelStartCol\x7d",
   "\x7bSelEndLine\x7d", "\x7bSelEndCol\x7d", "\x7bCurSel\x7d", "\x7bCurLineText\x7d",
   "\x7bCurWord\x7d"]

/-- SetArgVarVals (argvars.go lines 52 to 103) sets the current values for
arg variables by assigning into the existing map (a nil map is first
allocated empty, modelled by passing the empty association list): the ten
file and project tokens from the path decompositions, then the nine
editor tokens — from the text view when one is supplied (the selection
end column reading `SelectReg.Start.Ch` exactly as the source does), or
all empty strings when none is. -/
def SetArgVarVals (pl : PathLib) (av : List (String × String))
    (fpath projpath : String) (tv : Option TextView) : List (String × String) :=
  let fpath := pl.clean fpath
  let projpath := pl.clean projpath
  let sp := pl.split fpath
  let dirpath := pl.clean sp.1
  let fnm := sp.2
  let dir := (pl.split dirpath).2
  let dirrel := pl.rel projpath dirpath
  let projdir := (pl.split projpath).2
  let ext := pl.ext fnm
  let extlc := pl.toLower ext
  let fnmnoext := pl.trimSuffix fnm ext
  let av := mapSet av "\x7bFilePath\x7d" fpath
  let av := mapSet av "\x7bFileName\x7d" fnm
  let av := mapSet av "\x7bFileExt\x7d" ext
  let av := mapSet av "\x7bFileExtLC\x7d" extlc
  let av := mapSet av "\x7bFileNameNoExt\x7d" fnmnoext
  let av := mapSet av "\x7bFileDir\x7d" dir
  let av := mapSet av "\x7bFileDirPath\x7d" dirpath
  let av := mapSet av "\x7bFileDirProjRel\x7d" dirrel
  let av := mapSet av "\x7bProjectDir\x7d" projdir
  let av := mapSet av "\x7bProjectPath\x7d" projpath
  match tv with
  | some t =>
    let av := mapSet av "\x7bCurLine\x7d" (toString t.CursorPos.Ln)
    let av := mapSet av "\x7bCurCol\x7d" (toString t.CursorPos.Ch)
    let av := mapSet av "\x7bSelStartLine\x7d" (toString t.SelectReg.Start.Ln)
    let av := mapSet av "\x7bSelStartCol\x7d" (toString t.SelectReg.Start.Ch)
    let av := mapSet av "\x7bSelEndLine\x7d" (toString t.SelectReg.End.Ln)
    let av := mapSet av "\x7bSelEndCol\x7d" (toString t.SelectReg.Start.Ch)
    let av := mapSet av "\x7bCurSel\x7d" ""
    let av := mapSet av "\x7bCurLineText\x7d" ""
    let av := mapSet av "\x7bCurWord\x7d" ""
    av
  | none =>
    let av := mapSet av "\x7bCurLine\x7d" ""
    let av := mapSet av "\x7bCurCol\x7d" ""
    let av := mapSet av "\x7bSelStartLine\x7d" ""
    let av := mapSet av "\x7bSelStartCol\x7d" ""
    let av := mapSet av "\x7bSelEndLine\x7d" ""
    let av := mapSet av "\x7bSelEndCol\x7d" ""
    let av := mapSet av "\x7bCurSel\x7d" ""
    let av := mapSet av "\x7bCurLineText\x7d" ""
    let av := mapSet av "\x7bCurWord\x7d" ""
    av

/-- Text view used to evaluate `SetArgVarVals` at a closed input: cursor at
line 5 column 3, selection from (1,2) to (4,7). -/
def tvSel : TextView :=
  { CursorPos := { Ln := 5, Ch := 3 },
    SelectReg := { Start := { Ln := 1, Ch := 2 }, End := { Ln := 4, Ch := 7 } } }

/-- Text view with an empty (zero) selection region and the cursor at line
5 column 3, the giv representation of no active selection. -/
def tvNoSel : TextView :=
  { CursorPos := { Ln := 5, Ch := 3 },
    SelectReg := { Start := { Ln := 0, Ch := 0 }, End := { Ln := 0, Ch := 0 } } }

/-- The slice of a giv TextBuf that the command-buffer store manages: its
ki name (set once by InitName at creation), its content lines (`New 0`
truncates them), and the Autosave flag. -/
structure TextBuf where
  name : String
  lines : List String
  autosave : Bool
deriving Repr, DecidableEq

/-- FindOrMakeCmdBuf (gide.go lines 1198 to 1213) creates the buffer for
command output, or returns the existing one; when `clear` is set an
existing buffer is truncated in place (`buf.New(0)`).  Returns the updated
`CmdBufs` store (a nil store starts as the empty list), the buffer, and
true when a new buffer was created. -/
def FindOrMakeCmdBuf (cmdBufs : List (String × TextBuf)) (cmdNm : String)
    (clear : Bool) : List (String × TextBuf) × TextBuf × Bool :=
  match List.lookup cmdNm cmdBufs with
  | some buf =>
    let buf := if clear then { buf with lines := [] } else buf
    (mapSet cmdBufs cmdNm buf, buf, false)
  | none =>
    let buf : TextBuf := { name := cmdNm ++ "-buf", lines := [], autosave := false }
    (mapSet cmdBufs cmdNm buf, buf, true)

/-- Observable effects of the command entry points of gide.go, recorded in
program order: user-visible dialogs, the save-all-open-files check dialog
with its cancel-option flag, saving all open nodes, rebuilding the arg
variable map, creating or clearing a command tab and buffer, launching a
command, the commit message prompt, writing the prompt answer into the
global value map, setting the no-user-prompt flag, appending a changelog
record, and the post-commit log update. -/
inductive GideEff where
  | dialog (title : String)
  | saveAllDialog (cancelOpt : Bool)
  | saveAllOpenNodes
  | setArgVarValsEff
  | makeCmdTab (name : String)
  | runCmd (name : String)
  | stringPromptDialog (title : String)
  | setPrompt1 (msg : String)
  | setCmdNoUserPrompt
  | changeLogAdd (msg : String)
  | commitUpdtLog (name : String)
deriving Repr, DecidableEq

/-- Command of the catalog: its unique name and its applicability tag set
(language and version-control tags; empty means universally applicable). -/
structure Command where
  name : String
  applicability : List String
deriving Repr, DecidableEq

/-- Modelled from the spec: `FilterNames(language, vcs)` of the Command
Catalog (section 4.3) — the implementation (`AvailCmds.FilterCmdNames`) is
not among the given source files.  Returns, in catalog order, the name of
every Command whose applicability set is empty or contains the language or
the vcs tag. -/
def FilterCmdNames (catalog : List Command) (lang vcs : String) : List String :=
  (catalog.filter (fun c =>
    c.applicability.isEmpty || c.applicability.contains lang || c.applicability.contains vcs)).map
    (fun c => c.name)

/-- Modelled from the spec: `ByName(name)` exact-match catalog lookup
(section 4.3) — the implementation (`AvailCmds.CmdByName`) is not among the
given source files. -/
def CmdByName (catalog : List Command) (nm : String) : Option Command :=
  catalog.find? (fun c => c.name == nm)

/-- ExecCmdName (gide.go lines 1248 to 1256) as an effect trace: an unknown
name is reported and aborts (per the spec's configuration-error taxonomy,
the lookup implementation being external to the given sources); a known
command rebuilds the arg variable map, makes or clears its output tab and
buffer, and runs. -/
def ExecCmdName (catalog : List Command) (cmdNm : String) : List GideEff :=
  match CmdByName catalog cmdNm with
  | none => [.dialog "Command not found"]
  | some cmd => [.setArgVarValsEff, .makeCmdTab cmd.name, .runCmd cmd.name]

/-- ExecCmds (gide.go lines 1350 to 1354): executes a sequence of named
commands in order. -/
def ExecCmds (catalog : List Command) (cmdNms : List String) : List GideEff :=
  (cmdNms.map (ExecCmdName catalog)).flatten

/-- SaveAllCheck (gide.go lines 241 to 266) as an effect trace over the
user's dialog response `sig` (0 = Save All, 1 = Do Not Save, 2 = Cancel
Command, offered only with `cancelOpt`): with no changed files the
continuation runs at once with no dialog; otherwise the dialog is raised
and the handler runs the continuation unless the response is 2, saving all
open nodes first when it is 0. -/
def SaveAllCheck (nch : Nat) (cancelOpt : Bool) (sig : Nat)
    (contEffs : List GideEff) : List GideEff :=
  if nch = 0 then contEffs
  else
    .saveAllDialog cancelOpt ::
      (if sig ≠ 2 then (if sig = 0 then [.saveAllOpenNodes] else []) ++ contEffs else [])

/-- Build (gide.go lines 1364 to 1372): reports a dialog when no BuildCmds
are set, otherwise runs the BuildCmds chain behind the save-all check with
the cancel option. -/
def Build (catalog : List Command) (buildCmds : List String) (nch sig : Nat) :
    List GideEff :=
  if buildCmds.isEmpty then [.dialog "No BuildCmds Set"]
  else SaveAllCheck nch true sig (ExecCmds catalog buildCmds)

/-- Run (gide.go lines 1375 to 1381): reports a dialog when no RunCmds are
set, otherwise executes the RunCmds chain directly — the source invokes no
save-all check here, so the trace depends on no changed-file count and no
dialog response. -/
def Run (catalog : List Command) (runCmds : List String) : List GideEff :=
  if runCmds.isEmpty then [.dialog "No RunCmds Set"]
  else ExecCmds catalog runCmds

/-- Go `strings.Contains(s, pat)` specialised as a scan over characters. -/
def containsSeq (l pat : List Char) : Bool :=
  match l with
  | [] => pat.isEmpty
  | c :: rest => pat.isPrefixOf (c :: rest) || containsSeq rest pat

/-- Go `strings.Contains(cm, "Commit")`. -/
def strContainsCommit (cm : String) : Bool :=
  containsSeq cm.data ("Commit" : String).data

/-- Scan loop of CommitNoChecks (gide.go lines 1399 to 1405): the first
name containing the substring Commit, or the empty string. -/
def commitCmdScan : List String → String
  | [] => ""
  | cm :: rest => if strContainsCommit cm then cm else commitCmdScan rest

/-- CommitNoChecks (gide.go lines 1397 to 1425) as an effect trace: filter
the catalog by the active language and version control, take the first
filtered name containing Commit, report and abort when there is none;
otherwise rebuild the arg variable map, prompt for the commit message and —
when the dialog is accepted with message `msg` — write the prompt answer
into the global value map, set the no-user-prompt flag, append a changelog
record, execute the commit command and update the commit log. -/
def CommitNoChecks (catalog : List Command) (lang vcs : String)
    (accepted : Bool) (msg : String) : List GideEff :=
  let cmds := FilterCmdNames catalog lang vcs
  let cmdnm := commitCmdScan cmds
  if cmdnm = "" then [.dialog "No Commit command found"]
  else
    .setArgVarValsEff :: .stringPromptDialog "Commit Message" ::
      (if accepted then
        [.setPrompt1 msg, .setCmdNoUserPrompt, .changeLogAdd msg] ++
          ExecCmdName catalog cmdnm ++ [.commitUpdtLog cmdnm]
      else [])

/-- Commit (gide.go lines 1385 to 1394): reports a dialog when no version
control is set, otherwise runs CommitNoChecks behind the save-all check
with the cancel option. -/
def Commit (catalog : List Command) (lang versCtrl : String) (nch sig : Nat)
    (accepted : Bool) (msg : String) : List GideEff :=
  if versCtrl = "" then [.dialog "No VersCtrl Set"]
  else SaveAllCheck nch true sig (CommitNoChecks catalog lang versCtrl accepted msg)

/-- Key functions dispatched by GideKeys, after the gide KeyFuns enum (the
enum definition is external to the given sources; the constructors listed
are exactly those the GideKeys switch cases name, plus Nil and Needs2). -/
inductive KeyFuns where
  | KeyFunNil
  | KeyFunNeeds2
  | KeyFunNextPanel
  | KeyFunPrevPanel
  | KeyFunFileOpen
  | KeyFunBufSelect
  | KeyFunBufClone
  | KeyFunBufSave
  | KeyFunBufSaveAs
  | KeyFunBufClose
  | KeyFunExecCmd
  | KeyFunRegCopy
  | KeyFunRegPaste
  | KeyFunCommentOut
  | KeyFunIndent
  | KeyFunJump
  | KeyFunSetSplit
  | KeyFunBuildProj
  | KeyFunRunProj
deriving Repr, DecidableEq

/-- Toolkit-level key functions: GideKeys cases only gi.KeyFunFind, so the
model keeps Nil, Find and one representative for everything else. -/
inductive GiKeyFuns where
  | GiKeyFunNil
  | GiKeyFunFind
  | GiKeyFunOther
deriving Repr, DecidableEq

/-- Result of one GideKeys event: the pending first chord after the
handler returns, the status messages set, whether the event was marked
processed, whether the toolkit Find case fired, and which gide key
function case of the dispatch switch fired. -/
structure KeyRes where
  keySeq1 : String
  status : List String
  processed : Bool
  giFind : Bool
  kfAction : Option KeyFuns
deriving Repr, DecidableEq

/-- Whether the dispatch switch of GideKeys has a case for the given key
function (every constructor except Nil and Needs2). -/
def kfHasCase : KeyFuns → Bool
  | .KeyFunNil => false
  | .KeyFunNeeds2 => false
  | _ => true

/-- The two dispatch switches at the end of GideKeys (gide.go lines 2212
to 2278): the toolkit switch handles only Find (marking the event
processed), an already-processed event returns, and the gide switch marks
the event processed and fires its case when it has one.  Neither switch
touches the pending chord. -/
def dispatchSwitches (gkf : GiKeyFuns) (kf : KeyFuns) (r : KeyRes) : KeyRes :=
  let r := if gkf = GiKeyFuns.GiKeyFunFind then { r with processed := true, giFind := true } else r
  if r.processed then r
  else if kfHasCase kf then { r with processed := true, kfAction := some kf } else r

/-- GideKeys (gide.go lines 2172 to 2279) over the two-key chord state
`keySeq1` and the incoming chord `kc`, parametric in the two-chord lookup
`keyFunSeq`, the one-chord lookup `keyFun1` and the toolkit lookup
`giKeyFun` (all defined outside the given sources): with a pending first
chord, an unrecognized sequence or Escape aborts (status, processed, chord
cleared); a recognized sequence clears the chord, overrides the toolkit
function and dispatches.  With no pending chord, a needs-2 function stores
the chord and returns; otherwise a recognized function overrides the
toolkit function and the switches dispatch. -/
def GideKeys (keyFunSeq : String → String → KeyFuns) (keyFun1 : String → KeyFuns)
    (giKeyFun : String → GiKeyFuns) (keySeq1 kc : String) : KeyRes :=
  if keySeq1 ≠ "" then
    let kf := keyFunSeq keySeq1 kc
    let seqstr := keySeq1 ++ " " ++ kc
    if kf = KeyFuns.KeyFunNil ∨ kc = "Escape" then
      { keySeq1 := "", status := [seqstr ++ " -- aborted"], processed := true,
        giFind := false, kfAction := none }
    else
      dispatchSwitches GiKeyFuns.GiKeyFunNil kf
        { keySeq1 := "", status := [seqstr], processed := false,
          giFind := false, kfAction := none }
  else
    let kf := keyFun1 kc
    if kf = KeyFuns.KeyFunNeeds2 then
      { keySeq1 := kc, status := [kc], processed := true,
        giFind := false, kfAction := none }
    else
      let gkf := if kf ≠ KeyFuns.KeyFunNil then GiKeyFuns.GiKeyFunNil else giKeyFun kc
      dispatchSwitches gkf kf
        { keySeq1 := keySeq1, status := [], processed := false,
          giFind := false, kfAction := none }

/-! Helper lemmas about the fuel-indexed scan loop. -/

/-- When one iteration maps a state to itself, the loop never exits, at any
fuel. -/
theorem bindLoop_eq_none_of_fix (vals : List (String × String)) (s : BindState)
    (h : bindStep vals s = .cont s) : ∀ n, bindLoop vals n s = none := by
  intro n
  induction n with
  | zero => rfl
  | succ n ih => simp [bindLoop, h, ih]

/-- Unfolding lemma for a continuing iteration. -/
theorem bindLoop_succ_cont {vals : List (String × String)} {s s' : BindState}
    (h : bindStep vals s = .cont s') (n : Nat) :
    bindLoop vals (n + 1) s = bindLoop vals n s' := by
  simp [bindLoop, h]

/-- Unfolding lemma for an exiting iteration. -/
theorem bindLoop_succ_done {vals : List (String × String)} {s : BindState}
    {bs : List Char} {gq : Bool} (h : bindStep vals s = .done bs gq) (n : Nat) :
    bindLoop vals (n + 1) s = some (bs, gq) := by
  simp [bindLoop, h]

/-- C1: the claim says expanding the single-token template consisting of the
unresolved interactive token PromptString1 returns it unchanged, the scan
continuing past the token.  The code instead never terminates on this input:
the prompt branch of the loop body leaves the scan index unchanged, so the
loop re-reads the same token forever and no fuel suffices for it to exit —
for every value map, every platform flag and every fuel the embedded loop is
still running.  (Status: the scanning-continues behaviour of the claim is the
evident intent, the non-advancing scan index a slip in the code.) -/
theorem bindArgVars_prompt_token_never_terminates (win : Bool)
    (vals : List (String × String)) (fuel : Nat) :
    BindArgVars win vals "\x7bPromptString1\x7d" fuel = none := by
  unfold BindArgVars
  rw [bindLoop_eq_none_of_fix vals _ (by simp +decide [bindStep]) fuel]

/-- C2: the claim says BindArgVars is total, in particular on a well-formed
token whose name is not a key of the value map.  The code instead loops
forever on such a token: when the lookup fails the scan index is not
advanced, so the same token is re-read forever and the embedded loop never
exits at any fuel. -/
theorem bindArgVars_unknown_token_never_terminates (win : Bool)
    (vals : List (String × String)) (fuel : Nat)
    (h : List.lookup "\x7bUnknown\x7d" vals = none) :
    BindArgVars win vals "\x7bUnknown\x7d" fuel = none := by
  unfold BindArgVars
  rw [bindLoop_eq_none_of_fix vals _ (by simp +decide [bindStep, h]) fuel]

/-- Witness for C2: the empty value map binds no token, and on it the
expander applied to the unknown token yields no result within fuel 7. -/
theorem bindArgVars_unknown_token_never_terminates_witness :
    List.lookup "\x7bUnknown\x7d" ([] : List (String × String)) = none ∧
      BindArgVars false [] "\x7bUnknown\x7d" 7 = none :=
  ⟨by decide, bindArgVars_unknown_token_never_terminates false [] 7 (by decide)⟩

/-- C4 counterexample: on the template backslash-lbrace-literal-backslash-
rbrace with the empty value map the expander strips the escape marker before
the opening delimiter but leaves the backslash before the closing delimiter
in place, so the claimed output (both markers stripped) is not produced. -/
theorem bindArgVars_escaped_rbrace_marker_not_stripped :
    BindArgVars false [] "\x5c\x7bliteral\x5c\x7d" 10 = some "\x7bliteral\x5c\x7d" ∧
      BindArgVars false [] "\x5c\x7bliteral\x5c\x7d" 10 ≠ some "\x7bliteral\x7d" := by
  constructor
  · decide
  · decide

/-- C4 amended: for every value map and platform flag, expanding the
escaped template yields lbrace-literal-backslash-rbrace — the escape marker
before the opening delimiter makes it literal text and is stripped by the
final pass, while a backslash before the closing delimiter is not an escape
and passes through intact (only the backslash-lbrace pair is collapsed). -/
theorem bindArgVars_escaped_lbrace_literal (win : Bool)
    (vals : List (String × String)) (n : Nat) :
    BindArgVars win vals "\x5c\x7bliteral\x5c\x7d" (n + 2) = some "\x7bliteral\x5c\x7d" := by
  have h1 : bindStep vals { bs := ("\x5c\x7bliteral\x5c\x7d" : String).data, ci := 0, sz := ("\x5c\x7bliteral\x5c\x7d" : String).length, gotquote := false } = .cont { bs := ("\x5c\x7bliteral\x5c\x7d" : String).data, ci := 2, sz := ("\x5c\x7bliteral\x5c\x7d" : String).length, gotquote := true } := by
    simp +decide [bindStep]
  have h2 : bindStep vals { bs := ("\x5c\x7bliteral\x5c\x7d" : String).data, ci := 2, sz := ("\x5c\x7bliteral\x5c\x7d" : String).length, gotquote := true } = .done ("\x5c\x7bliteral\x5c\x7d" : String).data true := by
    simp +decide [bindStep]
  have hloop : bindLoop vals (n + 2) { bs := ("\x5c\x7bliteral\x5c\x7d" : String).data, ci := 0, sz := ("\x5c\x7bliteral\x5c\x7d" : String).length, gotquote := false } = some (("\x5c\x7bliteral\x5c\x7d" : String).data, true) :=
    (bindLoop_succ_cont h1 (n + 1)).trans (bindLoop_succ_done h2 n)
  unfold BindArgVars
  rw [hloop]
  cases win <;> decide

/-- C9: a well-formed token bound in the value map is replaced by its value
and the scan index jumps past the substituted text, so whatever delimiter
characters the value carries — including when the value is itself a token
bound in the map — the result is the value verbatim, never re-expanded:
for every value map binding the token lbrace-A-rbrace to an arbitrary value
`val`, expansion returns exactly `val` at every sufficient fuel. -/
theorem bindArgVars_substituted_value_not_rescanned
    (vals : List (String × String)) (val : String) (n : Nat)
    (h : List.lookup "\x7bA\x7d" vals = some val) :
    BindArgVars false vals "\x7bA\x7d" (n + 2) = some val := by
  have h1 : bindStep vals { bs := ("\x7bA\x7d" : String).data, ci := 0, sz := ("\x7bA\x7d" : String).length, gotquote := false } = .cont { bs := val.data ++ [], ci := val.data.length, sz := (val.data ++ []).length, gotquote := false } := by
    simp +decide [bindStep, h]
  have h2 : bindStep vals { bs := val.data ++ [], ci := val.data.length, sz := (val.data ++ []).length, gotquote := false } = .done val.data false := by
    simp [bindStep]
  have hloop : bindLoop vals (n + 2) { bs := ("\x7bA\x7d" : String).data, ci := 0, sz := ("\x7bA\x7d" : String).length, gotquote := false } = some (val.data, false) :=
    (bindLoop_succ_cont h1 (n + 1)).trans (bindLoop_succ_done h2 n)
  unfold BindArgVars
  rw [hloop]
  simp

/-- Witness for C9: in a value map sending lbrace-A-rbrace to the string
lbrace-B-rbrace, which is itself a key of the map bound to the string x,
expanding the single-token template produces lbrace-B-rbrace verbatim — the
substituted text is not re-scanned even though it is a known token. -/
theorem bindArgVars_substituted_value_not_rescanned_witness :
    List.lookup "\x7bA\x7d" [("\x7bA\x7d", "\x7bB\x7d"), ("\x7bB\x7d", "x")] = some "\x7bB\x7d" ∧
      BindArgVars false [("\x7bA\x7d", "\x7bB\x7d"), ("\x7bB\x7d", "x")] "\x7bA\x7d" 5 = some "\x7bB\x7d" :=
  ⟨by decide,
    bindArgVars_substituted_value_not_rescanned
      [("\x7bA\x7d", "\x7bB\x7d"), ("\x7bB\x7d", "x")] "\x7bB\x7d" 3 (by decide)⟩

/-- Lookup after a Go map assignment: the written key reads back the new
value and every other key is unaffected. -/
theorem lookup_mapSet {β : Type} (m : List (String × β)) (k k' : String) (v : β) :
    List.lookup k (mapSet m k' v) = if k' = k then some v else List.lookup k m := by
  induction m with
  | nil =>
    by_cases h : k' = k
    · subst h; simp [mapSet, List.lookup]
    · have hb : (k == k') = false := beq_eq_false_iff_ne.mpr (Ne.symm h)
      simp [mapSet, List.lookup, hb, h]
  | cons p rest ih =>
    obtain ⟨a, b⟩ := p
    by_cases hak : a = k'
    · subst hak
      by_cases h : a = k
      · subst h; simp [mapSet, List.lookup]
      · have hb : (k == a) = false := beq_eq_false_iff_ne.mpr (Ne.symm h)
        simp [mapSet, List.lookup, hb, h]
    · by_cases h : k = a
      · subst h
        have hkk : ¬k' = k := fun e => hak e.symm
        simp [mapSet, hak, List.lookup, hkk]
      · have hb : (k == a) = false := beq_eq_false_iff_ne.mpr h
        simp [mapSet, hak, List.lookup, hb, ih]

/-- C3 counterexample: after `SetArgVarVals` rebuilds the value map, the
interactive prompt token PromptString1 is not part of the rebuilt
vocabulary and a stale value written by a prior invocation is not cleared:
starting from a map carrying the stale binding, the rebuild leaves it
readable unchanged, and starting from the empty map the token is absent
rather than present — both contradicting the claimed invariant that every
`ArgVars` token is a key and prior prompt values are cleared or
overwritten. -/
theorem setArgVarVals_stale_prompt_persists :
    List.lookup "\x7bPromptString1\x7d"
        (SetArgVarVals pathLib0 [("\x7bPromptString1\x7d", "stale")] "f" "p" none) = some "stale" ∧
      List.lookup "\x7bPromptString1\x7d" (SetArgVarVals pathLib0 [] "f" "p" none) = none := by
  decide

/-- C3 amended: for every path-helper instance, prior map, paths and
editor, `SetArgVarVals` (1) never writes any of the seven interactive
prompt tokens, whose bindings — stale values included — pass through
unchanged, (2) maps every editor-dependent token to the empty string when
no editor is supplied, and (3) leaves every non-prompt `ArgVars` token
present as a key. -/
theorem setArgVarVals_rebuild_vocabulary (pl : PathLib)
    (av : List (String × String)) (fpath projpath : String) (tv : Option TextView) :
    (∀ tok, tok ∈ promptTokens →
      List.lookup tok (SetArgVarVals pl av fpath projpath tv) = List.lookup tok av) ∧
    (∀ tok, tok ∈ editorTokens →
      List.lookup tok (SetArgVarVals pl av fpath projpath none) = some "") ∧
    (∀ tok, tok ∈ ArgVars → tok ∉ promptTokens →
      (List.lookup tok (SetArgVarVals pl av fpath projpath tv)).isSome = true) := by
  refine ⟨?_, ?_, ?_⟩
  · intro tok htok
    simp only [promptTokens, List.mem_cons, List.not_mem_nil, or_false] at htok
    rcases htok with rfl | rfl | rfl | rfl | rfl | rfl | rfl <;>
      cases tv <;> simp +decide [SetArgVarVals, lookup_mapSet]
  · intro tok htok
    simp only [editorTokens, List.mem_cons, List.not_mem_nil, or_false] at htok
    rcases htok with rfl | rfl | rfl | rfl | rfl | rfl | rfl | rfl | rfl <;>
      simp +decide [SetArgVarVals, lookup_mapSet]
  · intro tok htok hnp
    simp only [ArgVars, List.mem_cons, List.not_mem_nil, or_false] at htok
    rcases htok with rfl | rfl | rfl | rfl | rfl | rfl | rfl | rfl | rfl | rfl | rfl | rfl | rfl | rfl | rfl | rfl | rfl | rfl | rfl | rfl | rfl | rfl | rfl | rfl | rfl | rfl <;>
      first
        | (exact absurd (by decide) hnp)
        | (cases tv <;> simp +decide [SetArgVarVals, lookup_mapSet])

/-- Witness for the amended C3, at the concrete path helpers, a map
carrying a stale prompt binding, and no editor: the stale prompt value
passes through, CurLine reads the empty string, and FilePath is present. -/
theorem setArgVarVals_rebuild_vocabulary_witness :
    List.lookup "\x7bPromptString1\x7d"
        (SetArgVarVals pathLib0 [("\x7bPromptString1\x7d", "stale")] "f" "p" none) =
      List.lookup "\x7bPromptString1\x7d" [("\x7bPromptString1\x7d", "stale")] ∧
    List.lookup "\x7bCurLine\x7d"
        (SetArgVarVals pathLib0 [("\x7bPromptString1\x7d", "stale")] "f" "p" none) = some "" ∧
    (List.lookup "\x7bFilePath\x7d"
        (SetArgVarVals pathLib0 [("\x7bPromptString1\x7d", "stale")] "f" "p" none)).isSome = true :=
  ⟨(setArgVarVals_rebuild_vocabulary pathLib0 [("\x7bPromptString1\x7d", "stale")] "f" "p" none).1
      "\x7bPromptString1\x7d" (by decide),
   (setArgVarVals_rebuild_vocabulary pathLib0 [("\x7bPromptString1\x7d", "stale")] "f" "p" none).2.1
      "\x7bCurLine\x7d" (by decide),
   (setArgVarVals_rebuild_vocabulary pathLib0 [("\x7bPromptString1\x7d", "stale")] "f" "p" none).2.2
      "\x7bFilePath\x7d" (by decide) (by decide)⟩

/-- C6: with an active editor whose selection runs from (1,2) to (4,7) and
cursor at (5,3), `SetArgVarVals` writes the selection START column "2"
into the SelEndCol token, not the claimed ending column "7" (the source
reads `SelectReg.Start.Ch` on the SelEndCol line), while SelEndLine does
read the ending line "4"; and with an empty (zero) selection region the
four selection tokens read the zero region, not the cursor position — the
claimed degeneration to CurLine and CurCol (promised by the `ArgVars`
doc comments and by the `check for no sel` remarks in the source) is not
implemented: SelEndCol reads "0" although the cursor column is "3". -/
theorem setArgVarVals_selEndCol_reads_start_column :
    List.lookup "\x7bSelEndCol\x7d" (SetArgVarVals pathLib0 [] "f" "p" (some tvSel)) = some "2" ∧
      List.lookup "\x7bSelEndLine\x7d" (SetArgVarVals pathLib0 [] "f" "p" (some tvSel)) = some "4" ∧
      List.lookup "\x7bSelEndCol\x7d" (SetArgVarVals pathLib0 [] "f" "p" (some tvNoSel)) = some "0" ∧
      List.lookup "\x7bCurCol\x7d" (SetArgVarVals pathLib0 [] "f" "p" (some tvNoSel)) = some "3" := by
  decide

/-- C8: requesting the command buffer for any name twice never allocates on
the second call (wasCreated is false), preserves the buffer identity (the
ki name set at creation), truncates in place exactly when `clear` is set,
preserves the autosave flag, and a newly created buffer (name absent from
the store) is empty with autosave disabled. -/
theorem findOrMakeCmdBuf_same_identity (bufs : List (String × TextBuf))
    (nm : String) (c1 c2 : Bool) :
    (FindOrMakeCmdBuf (FindOrMakeCmdBuf bufs nm c1).1 nm c2).2.2 = false ∧
    (FindOrMakeCmdBuf (FindOrMakeCmdBuf bufs nm c1).1 nm c2).2.1.name
      = (FindOrMakeCmdBuf bufs nm c1).2.1.name ∧
    (FindOrMakeCmdBuf (FindOrMakeCmdBuf bufs nm c1).1 nm c2).2.1.lines
      = (if c2 then [] else (FindOrMakeCmdBuf bufs nm c1).2.1.lines) ∧
    (FindOrMakeCmdBuf (FindOrMakeCmdBuf bufs nm c1).1 nm c2).2.1.autosave
      = (FindOrMakeCmdBuf bufs nm c1).2.1.autosave ∧
    (List.lookup nm bufs = none →
      (FindOrMakeCmdBuf bufs nm c1).2.2 = true ∧
        (FindOrMakeCmdBuf bufs nm c1).2.1.lines = [] ∧
        (FindOrMakeCmdBuf bufs nm c1).2.1.autosave = false) := by
  cases h : List.lookup nm bufs <;> cases c1 <;> cases c2 <;>
    simp [FindOrMakeCmdBuf, h, lookup_mapSet]

/-- Witness for C8 at the empty store and the name Build with clear set
twice: the name is initially absent, the second call does not allocate,
and the first call created an empty buffer. -/
theorem findOrMakeCmdBuf_same_identity_witness :
    List.lookup "Build" ([] : List (String × TextBuf)) = none ∧
      (FindOrMakeCmdBuf (FindOrMakeCmdBuf [] "Build" true).1 "Build" true).2.2 = false ∧
      (FindOrMakeCmdBuf [] "Build" true).2.1.lines = [] :=
  ⟨by decide,
   (findOrMakeCmdBuf_same_identity [] "Build" true true).1,
   ((findOrMakeCmdBuf_same_identity [] "Build" true true).2.2.2.2 (by decide)).2.1⟩

/-- C5 counterexample: the Run entry point does not invoke the
save-all-open-files check at all — with a nonempty RunCmds list its effect
trace goes straight to rebuilding the variables and launching the command,
contains no save-all dialog (with or without the cancel option), and runs
the command, so no Cancel Command response can abort it. -/
theorem run_executes_without_save_check :
    Run [{ name := "Run It", applicability := [] }] ["Run It"] =
      [GideEff.setArgVarValsEff, GideEff.makeCmdTab "Run It", GideEff.runCmd "Run It"] ∧
    GideEff.saveAllDialog true ∉ Run [{ name := "Run It", applicability := [] }] ["Run It"] ∧
    GideEff.saveAllDialog false ∉ Run [{ name := "Run It", applicability := [] }] ["Run It"] ∧
    GideEff.runCmd "Run It" ∈ Run [{ name := "Run It", applicability := [] }] ["Run It"] := by
  decide

/-- C5 amended: Build and Commit (with commands and version control
configured and at least one unsaved file) raise the save-all check with
the cancel option, and the Cancel Command response (2) aborts the whole
chain before any command effect — the trace is exactly the dialog; Run
executes its command chain directly with no save-all check. -/
theorem build_commit_gated_by_save_check (catalog : List Command)
    (bc rc : List String) (lang vcs : String) (nch : Nat) (accepted : Bool)
    (msg : String) (hbc : bc ≠ []) (hrc : rc ≠ []) (hvc : vcs ≠ "") (hnch : nch ≠ 0) :
    Build catalog bc nch 2 = [GideEff.saveAllDialog true] ∧
    Commit catalog lang vcs nch 2 accepted msg = [GideEff.saveAllDialog true] ∧
    Run catalog rc = ExecCmds catalog rc := by
  have hbce : bc.isEmpty = false := by cases bc with | nil => exact absurd rfl hbc | cons a l => rfl
  have hrce : rc.isEmpty = false := by cases rc with | nil => exact absurd rfl hrc | cons a l => rfl
  refine ⟨?_, ?_, ?_⟩ <;> simp [Build, Commit, Run, SaveAllCheck, hbce, hrce, hvc, hnch]

/-- Witness for the amended C5 at a three-command catalog, one unsaved
file and the Cancel response: Build and Commit raise only the dialog, Run
executes its chain. -/
theorem build_commit_gated_by_save_check_witness :
    Build [{ name := "Build It", applicability := [] },
        { name := "Run It", applicability := [] },
        { name := "Commit It", applicability := [] }] ["Build It"] 1 2 =
      [GideEff.saveAllDialog true] ∧
    Commit [{ name := "Build It", applicability := [] },
        { name := "Run It", applicability := [] },
        { name := "Commit It", applicability := [] }] "Go" "Git" 1 2 true "msg" =
      [GideEff.saveAllDialog true] ∧
    Run [{ name := "Build It", applicability := [] },
        { name := "Run It", applicability := [] },
        { name := "Commit It", applicability := [] }] ["Run It"] =
      ExecCmds [{ name := "Build It", applicability := [] },
        { name := "Run It", applicability := [] },
        { name := "Commit It", applicability := [] }] ["Run It"] :=
  build_commit_gated_by_save_check
    [{ name := "Build It", applicability := [] },
     { name := "Run It", applicability := [] },
     { name := "Commit It", applicability := [] }]
    ["Build It"] ["Run It"] "Go" "Git" 1 true "msg"
    (by decide) (by decide) (by decide) (by decide)

/-- The selection loop of CommitNoChecks agrees with a first-match
search: it returns the first name satisfying the Commit-substring test,
or the empty string when none does. -/
theorem commitCmdScan_eq_find (cmds : List String) :
    commitCmdScan cmds = ((cmds.find? (fun nm => strContainsCommit nm)).getD "") := by
  induction cmds with
  | nil => rfl
  | cons cm rest ih =>
    by_cases h : strContainsCommit cm = true
    · simp [commitCmdScan, List.find?, h]
    · simp only [Bool.not_eq_true] at h
      simp [commitCmdScan, List.find?, h, ih]

/-- C7: CommitNoChecks selects the first command of the filtered catalog
list whose name contains the substring Commit (the scan loop equals a
first-match search), and when no filtered name contains Commit its whole
effect trace is the single error dialog — no command runs, no tab or
buffer is made, and neither the value map nor the changelog is touched. -/
theorem commitNoChecks_first_commit_or_abort (catalog : List Command)
    (lang vcs : String) (accepted : Bool) (msg : String) :
    commitCmdScan (FilterCmdNames catalog lang vcs)
      = ((FilterCmdNames catalog lang vcs).find? (fun nm => strContainsCommit nm)).getD "" ∧
    ((∀ nm ∈ FilterCmdNames catalog lang vcs, strContainsCommit nm = false) →
      CommitNoChecks catalog lang vcs accepted msg
        = [GideEff.dialog "No Commit command found"]) := by
  refine ⟨commitCmdScan_eq_find _, ?_⟩
  intro hnone
  have hfind : (FilterCmdNames catalog lang vcs).find? (fun nm => strContainsCommit nm) = none :=
    List.find?_eq_none.mpr (fun x hx => by simp [hnone x hx])
  simp [CommitNoChecks, commitCmdScan_eq_find, hfind]

/-- Witness for C7 at a catalog holding one universal command named Build
Proj: no filtered name contains Commit, so the selection is empty and the
trace is the lone error dialog. -/
theorem commitNoChecks_first_commit_or_abort_witness :
    commitCmdScan (FilterCmdNames [{ name := "Build Proj", applicability := [] }] "Go" "Git")
      = ((FilterCmdNames [{ name := "Build Proj", applicability := [] }] "Go" "Git").find?
          (fun nm => strContainsCommit nm)).getD "" ∧
    CommitNoChecks [{ name := "Build Proj", applicability := [] }] "Go" "Git" true "msg"
      = [GideEff.dialog "No Commit command found"] :=
  ⟨(commitNoChecks_first_commit_or_abort
      [{ name := "Build Proj", applicability := [] }] "Go" "Git" true "msg").1,
   (commitNoChecks_first_commit_or_abort
      [{ name := "Build Proj", applicability := [] }] "Go" "Git" true "msg").2 (by decide)⟩

/-- C10: whenever GideKeys runs with a pending first chord, the pending
chord is the empty chord when the handler returns — for every lookup
table, pending chord and incoming chord, whether the second key completes
a known sequence, is unrecognized, or is Escape. -/
theorem gideKeys_pending_chord_cleared (kfSeq : String → String → KeyFuns)
    (kf1 : String → KeyFuns) (gkf : String → GiKeyFuns) (st kc : String)
    (h : st ≠ "") :
    (GideKeys kfSeq kf1 gkf st kc).keySeq1 = "" := by
  have hd : ∀ g k r, (dispatchSwitches g k r).keySeq1 = r.keySeq1 := by
    intro g k r
    simp only [dispatchSwitches]
    split
    · split <;> simp_all
    · split
      · simp_all
      · split <;> simp_all
  unfold GideKeys
  rw [if_pos h]
  dsimp only
  split <;> simp [hd]

/-- Witness for C10 at the pending chord Control+X and incoming Escape
with lookup tables that recognize nothing. -/
theorem gideKeys_pending_chord_cleared_witness :
    (GideKeys (fun _ _ => KeyFuns.KeyFunNil) (fun _ => KeyFuns.KeyFunNil)
      (fun _ => GiKeyFuns.GiKeyFunNil) "Control+X" "Escape").keySeq1 = "" :=
  gideKeys_pending_chord_cleared (fun _ _ => KeyFuns.KeyFunNil)
    (fun _ => KeyFuns.KeyFunNil) (fun _ => GiKeyFuns.GiKeyFunNil)
    "Control+X" "Escape" (by decide)

end Gide
